import Mathlib

/-!
Shallow embedding of `openstackkit/l3_evacuate.py` (neutron L3-agent
evacuation tool) and verification of the specification claims.

The control-plane client (neutron) and the remote executor (ansible) are
external collaborators; their responses are supplied through explicit
environment records.  Everything else is translated from the source.
-/

set_option maxRecDepth 4096

namespace L3Evacuate

/-- A neutron L3 agent (the fields the tool reads). -/
structure Agent where
  id : String
  host : String
deriving Repr, DecidableEq

/-- A neutron port (the fields the tool reads). -/
structure Port where
  id : String
  device_owner : String
deriving Repr, DecidableEq

/-- A neutron router (the fields the tool reads). -/
structure Router where
  id : String
  routes : List String
deriving Repr, DecidableEq

/-! ## Pickers

`Picker.__init__` stores the eligible destination agents in a dict whose
iteration order we model by a list (destination ordering), together with a
running-total map modelled as a load list in the same order, and an
`itertools.cycle` over the destinations modelled by a cursor counting the
`next()` calls made so far. -/

/-- `itertools.cycle(dests).next()` after `cursor` prior calls: yields
element `cursor % len` of the cycled list, and raises `StopIteration`
(here `none`) when the list is empty. -/
def cycleNext (dests : List String) (cursor : Nat) : Option String :=
  if dests.isEmpty then none
  else dests.get? (cursor % dests.length)

/-- Body of `CyclePicker.init`: `for router in routers: agent_id =
self._dest_cycle.next(); self.dest[agent_id]['routers'].append(router)`.
Returns the per-router destination assignments in listing order, or the
`StopIteration` the empty cycle raises. -/
def cyclePickerInitGo (dests : List String) : List Router → Nat →
    Except String (List (String × Router))
  | [], _ => .ok []
  | r :: rs, cursor =>
    match cycleNext dests cursor with
    | none => .error "StopIteration"
    | some d =>
      match cyclePickerInitGo dests rs (cursor + 1) with
      | .error e => .error e
      | .ok rest => .ok ((d, r) :: rest)

/-- `CyclePicker.init` run on the snapshot `routers` with a fresh cycle
(the cycle is created in `Picker.__init__` and `init` is its first
consumer, so the cursor starts at 0). -/
def cyclePickerInit (dests : List String) (routers : List Router) :
    Except String (List (String × Router)) :=
  cyclePickerInitGo dests routers 0

/-- Index of the first minimal element of a load list: the behaviour of
Python's `min(totals.keys(), key=lambda agent_id: totals[agent_id])`
(ties broken by first position in the destination ordering). -/
def argminIdx : List Nat → Nat
  | [] => 0
  | x :: xs => if xs.all (fun y => x ≤ y) then 0 else argminIdx xs + 1

/-- Body of `BalancePicker.init`: for each router pick the destination
with the currently-lowest running total, record the assignment and
increment that total.  `min()` over an empty destination set raises
`ValueError` (here `.error`).  Returns the assignments (destination
index, router) and the final running totals. -/
def balanceInitGo : List Router → List Nat →
    Except String (List (Nat × Router) × List Nat)
  | [], totals => .ok ([], totals)
  | r :: rs, totals =>
    if totals.isEmpty then .error "ValueError: min() arg is an empty sequence"
    else
      let i := argminIdx totals
      match balanceInitGo rs (totals.set i (totals.getD i 0 + 1)) with
      | .error e => .error e
      | .ok (asgn, finalTotals) => .ok ((i, r) :: asgn, finalTotals)

/-! ## Evacuator

The evacuator's two collaborators — the neutron control plane and the
remote executor — are modelled by an environment record supplying their
responses.  Every side-effecting call the evacuator makes is recorded in
an action trace. -/

/-- Observable side-effecting calls of the evacuator: control-plane
remove/add of a router to an agent, and remote shell commands. -/
inductive Action where
  | removeApi (agentId routerId : String)
  | addApi (agentId routerId : String)
  | remote (host : String) (argv : List String)
deriving Repr, DecidableEq

/-- Outcome of one attempt of `_remove_router`/`_add_router`: the neutron
call raised `NeutronClientException`, or it succeeded but the
`_wait_until` API poll timed out, or the poll confirmed the change. -/
inductive ApiAttempt where
  | exn
  | pollFail
  | ok
deriving Repr, DecidableEq

/-- Environment: responses of the two external collaborators, plus the
engine's retry budget.  The remote host state is a static snapshot
(commands get fixed responses during one operation). -/
structure Env where
  /-- `RemoteRunner.remote_exec`: `(rc, stdout, stderr)` of a command. -/
  remoteExec : String → List String → Int × String × String
  /-- `list_ports(device_id=routerId, admin_state_up=True)`. -/
  ports_up : String → List Port
  /-- `list_ports(device_id=routerId)`. -/
  ports_all : String → List Port
  /-- count of `list_floatingips(router_id=routerId)` results. -/
  floatingips : String → Nat
  /-- outcome of the k-th detach attempt in `_remove_router`. -/
  removeAttempt : Nat → ApiAttempt
  /-- outcome of the k-th attach attempt of `_add_router` on the target. -/
  addTargetAttempt : Nat → ApiAttempt
  /-- outcomes of the attach attempts issued at recursion depth `d` of
  `_retry_failed_router`. -/
  addAttempt : Nat → Nat → ApiAttempt
  /-- response of `list_l3_agent_hosting_routers` at recursion depth `d`
  of `_retry_failed_router`. -/
  hosting : Nat → List Agent
  /-- the engine's configured retry budget `self._retry`. -/
  retry : Nat

/-- `RemoteRunner.run`: non-zero exit maps to `(False, stderr)`, zero to
`(True, stdout)`; the issued command is recorded in the trace. -/
def rrun (env : Env) (host : String) (cmd : List String) :
    (Bool × String) × List Action :=
  let res := env.remoteExec host cmd
  (if res.1 ≠ 0 then (false, res.2.2) else (true, res.2.1),
   [.remote host cmd])

def cmd_grep_snat_rule_in_netns (netns rule_name : String) : List String :=
  ["ip", "netns", "exec", netns, "iptables", "-t", "nat", "-L", "|", "grep",
   "^" ++ rule_name]

def cmd_show_ipforward_in_netns (netns : String) : List String :=
  ["ip", "netns", "exec", netns, "cat", "/proc/sys/net/ipv4/ip_forward"]

def cmd_list_nic_in_netns (netns : String) : List String :=
  ["ip", "netns", "exec", netns, "ls", "-1", "/sys/class/net/"]

def cmd_delete_ovs_port (port_name br_name : String) (tmo : Nat) :
    List String :=
  ["ovs-vsctl", "--timeout=" ++ toString tmo, "--", "--if-exists",
   "del-port", br_name, port_name]

def cmd_delete_netns (netns : String) : List String :=
  ["ip", "netns", "delete", netns]

/-- Helper for Python's `output.split('\n')`: split a character list at
every separator occurrence, keeping empty pieces. -/
def splitCharAux (sep : Char) : List Char → List Char → List (List Char)
  | [], acc => [acc.reverse]
  | x :: xs, acc =>
    if x = sep then acc.reverse :: splitCharAux sep xs []
    else splitCharAux sep xs (x :: acc)

/-- Python's `s.split('\n')` (single-character separator, empty pieces
kept, `"".split('\n') = [""]`). -/
def splitLines (s : String) : List String :=
  (splitCharAux '\n' s.data []).map fun l => ⟨l⟩

/-- Helper for Python's substring test `needle in hay`. -/
def containsSubAux (needle : List Char) : List Char → Bool
  | [] => needle.isEmpty
  | c :: cs => needle.isPrefixOf (c :: cs) || containsSubAux needle cs

/-- Python's substring test `needle in hay` on strings. -/
def strContains (hay needle : String) : Bool :=
  containsSubAux needle.data hay.data

/-- `_list_nics_in_netns_on_remote`: on success, the stdout lines other
than `lo`; on failure, the empty list when the error output shows the
namespace is absent, otherwise an `Exception` (`.error`). -/
def list_nics_in_netns_on_remote (env : Env) (host netns : String) :
    Except String (List String) × List Action :=
  let r := rrun env host (cmd_list_nic_in_netns netns)
  let res : Except String (List String) :=
    if r.1.1 then
      .ok ((splitLines r.1.2).filter (fun one_nic => one_nic ≠ "lo"))
    else
      if strContains r.1.2 "Cannot open network namespace" then .ok []
      else
        .error ("Failed list nics in namespace " ++ netns ++ " on host [" ++
          host ++ "]")
  (res, r.2)

/-- `_verify_router_snat_rule`: greps for the neutron snat rule inside
the router namespace; true iff the remote command exits zero. -/
def verify_router_snat_rule (env : Env) (agent : Agent) (router : Router) :
    Bool × List Action :=
  let ns := "qrouter-" ++ router.id
  let r := rrun env agent.host
    (cmd_grep_snat_rule_in_netns ns "neutron-l3-agent-snat")
  (r.1.1, r.2)

/-- `_verify_ipforward_on_host`: reads
`/proc/sys/net/ipv4/ip_forward` in the namespace; true iff the command
succeeds and prints exactly `"1"`. -/
def verify_ipforward_on_host (env : Env) (agent : Agent) (router : Router) :
    Bool × List Action :=
  let ns := "qrouter-" ++ router.id
  let r := rrun env agent.host (cmd_show_ipforward_in_netns ns)
  (if r.1.1 then r.1.2 == "1" else false, r.2)

/-- `_verify_ports_on_host`: a router with no admin-state-enabled ports
verifies trivially (before any remote call); otherwise each enabled
interface/gateway port must appear as `qr-`/`qg-` plus the first 11
characters of the port id in the namespace's interface listing. -/
def verify_ports_on_host (env : Env) (agent : Agent) (router : Router) :
    Except String Bool × List Action :=
  let ns := "qrouter-" ++ router.id
  let ports := env.ports_up router.id
  if ports.length = 0 then (.ok true, [])
  else
    let ln := list_nics_in_netns_on_remote env agent.host ns
    match ln.1 with
    | .error e => (.error e, ln.2)
    | .ok result =>
      let state := ports.foldl (fun state one_port =>
        if one_port.device_owner = "network:router_interface" then
          state && result.contains ("qr-" ++ one_port.id.take 11)
        else if one_port.device_owner = "network:router_gateway" then
          state && result.contains ("qg-" ++ one_port.id.take 11)
        else state) true
      (.ok state, ln.2)

/-- `_verify_router_on_host`: ports check, then (only when it passed)
the IP-forwarding check. -/
def verify_router_on_host (env : Env) (agent : Agent) (router : Router) :
    Except String Bool × List Action :=
  let vp := verify_ports_on_host env agent router
  match vp.1 with
  | .error e => (.error e, vp.2)
  | .ok false => (.ok false, vp.2)
  | .ok true =>
    let r := verify_ipforward_on_host env agent router
    (.ok r.1, vp.2 ++ r.2)

/-- `_wait_until`: polls `f` while
`wait_time < least_wait_time or wait_time <= wait_timeout`; an exception
from `f` propagates; the result is `wait_time <= wait_timeout` at loop
exit.  Structural recursion on a fuel over-approximating the number of
iterations; the fuel/`wait_interval = 0` fallbacks are reachable only
when `wait_interval = 0`, where the source loops forever (every call
site passes a positive interval). -/
def wait_until_go (f : Nat → Except String Bool × List Action)
    (wait_interval least_wait_time wait_timeout : Nat) :
    Nat → Nat → Nat → Except String Bool × List Action
  | 0, wait_time, _ => (.ok (decide (wait_time ≤ wait_timeout)), [])
  | fuel + 1, wait_time, iter =>
    if wait_time < least_wait_time ∨ wait_time ≤ wait_timeout then
      let fi := f iter
      match fi.1 with
      | .error e => (.error e, fi.2)
      | .ok true => (.ok (decide (wait_time ≤ wait_timeout)), fi.2)
      | .ok false =>
        if wait_interval = 0 then
          (.ok (decide (wait_time ≤ wait_timeout)), fi.2)
        else
          let r := wait_until_go f wait_interval least_wait_time wait_timeout
            fuel (wait_time + wait_interval) (iter + 1)
          (r.1, fi.2 ++ r.2)
    else (.ok (decide (wait_time ≤ wait_timeout)), [])

/-- `_wait_until` entry point (`wait_time` starts at 0). -/
def wait_until (f : Nat → Except String Bool × List Action)
    (wait_interval least_wait_time wait_timeout : Nat) :
    Except String Bool × List Action :=
  wait_until_go f wait_interval least_wait_time wait_timeout
    (least_wait_time + wait_timeout + 1) 0 0

/-- `SequenceEvacuator._remove_router`: one API attempt per level; on
exception or poll timeout retry down to a zero budget; success as soon
as one attempt's poll confirms removal. -/
def remove_router (att : Nat → ApiAttempt) (agentId routerId : String) :
    Nat → Nat → Bool × List Action
  | retry, k =>
    match att k, retry with
    | .ok, _ => (true, [.removeApi agentId routerId])
    | _, 0 => (false, [.removeApi agentId routerId])
    | _, r + 1 =>
      let rest := remove_router att agentId routerId r (k + 1)
      (rest.1, .removeApi agentId routerId :: rest.2)

/-- `SequenceEvacuator._add_router`: same retry structure as
`_remove_router`. -/
def add_router (att : Nat → ApiAttempt) (agentId routerId : String) :
    Nat → Nat → Bool × List Action
  | retry, k =>
    match att k, retry with
    | .ok, _ => (true, [.addApi agentId routerId])
    | _, 0 => (false, [.addApi agentId routerId])
    | _, r + 1 =>
      let rest := add_router att agentId routerId r (k + 1)
      (rest.1, .addApi agentId routerId :: rest.2)

/-- `_clean_nics_on_host`: delete each stray nic via the bridge chosen
by its name (`qg-` → `br-router`, `qr-` → `br-int`, otherwise no
bridge); failures are only logged. -/
def clean_nics_on_host (env : Env) (host : String) (nics : List String) :
    List Action :=
  (nics.map (fun one_nic =>
    if strContains one_nic "qg-" then
      (rrun env host (cmd_delete_ovs_port one_nic "br-router" 10)).2
    else if strContains one_nic "qr-" then
      (rrun env host (cmd_delete_ovs_port one_nic "br-int" 10)).2
    else
      (rrun env host (cmd_delete_ovs_port one_nic "" 10)).2)).flatten

/-- `_clean_netns_on_host`: delete the namespace; failure only logged. -/
def clean_netns_on_host (env : Env) (host ns : String) : List Action :=
  (rrun env host (cmd_delete_netns ns)).2

/-- `L3AgentEvacuator._ensure_clean_router_on_host`: list the interfaces
in the router namespace on the agent's host; empty means verified clean
(no further command); non-empty triggers forced cleanup and still
returns true. -/
def ensure_clean_router_on_host (env : Env) (agent : Agent)
    (router : Router) : Except String Bool × List Action :=
  let ns := "qrouter-" ++ router.id
  let ln := list_nics_in_netns_on_remote env agent.host ns
  match ln.1 with
  | .error e => (.error e, ln.2)
  | .ok result =>
    if result.length = 0 then (.ok true, ln.2)
    else
      (.ok true, ln.2 ++ clean_nics_on_host env agent.host result ++
        clean_netns_on_host env agent.host ns)

/-- `SequenceEvacuator._ensure_router_cleaned`: true unless the host
cleanup raised. -/
def ensure_router_cleaned (env : Env) (agent : Agent) (router : Router) :
    Bool × List Action :=
  let ec := ensure_clean_router_on_host env agent router
  match ec.1 with
  | .ok _ => (true, ec.2)
  | .error _ => (false, ec.2)

/-- `_extra_timeout_for_router`: ports + floating IPs + routes. -/
def extra_timeout_for_router (env : Env) (router : Router) : Nat :=
  (env.ports_all router.id).length + env.floatingips router.id +
    router.routes.length

/-- Body of `SequenceEvacuator._ensure_router_added` (its `try` block):
best-effort wait for the snat marker (result discarded), then host
verification, then on failure a second verification wait with a
complexity-proportional extra timeout. -/
def ensure_router_added_body (env : Env) (agent : Agent)
    (router : Router) : Except String Bool × List Action :=
  let w1 := wait_until (fun _ =>
    let r := verify_router_snat_rule env agent router
    (.ok r.1, r.2)) 1 1 15
  let vr := verify_router_on_host env agent router
  match vr.1 with
  | .error e => (.error e, w1.2 ++ vr.2)
  | .ok true => (.ok true, w1.2 ++ vr.2)
  | .ok false =>
    let w2 := wait_until (fun _ => verify_router_on_host env agent router)
      1 1 (extra_timeout_for_router env router)
    (w2.1, w1.2 ++ vr.2 ++ w2.2)

/-- `_ensure_router_added`: the source's catch-all `except` maps any
exception raised by the body to a `True` ("verified") result. -/
def ensure_router_added (env : Env) (agent : Agent) (router : Router) :
    Bool × List Action :=
  let b := ensure_router_added_body env agent router
  match b.1 with
  | .error _ => (true, b.2)
  | .ok v => (v, b.2)

/-- `SequenceEvacuator._retry_failed_router`, with the remaining budget
counted as the number of recursion levels still allowed:
`b = retry + 1`, so `b = 0` is the source's entry check `retry < 0`. -/
def retry_failed_go (env : Env) (router : Router) (src_agent : Agent) :
    Nat → Nat → List Action
  | 0, _ => []
  | b + 1, depth =>
    match env.hosting depth with
    | agent :: _ =>
      let r := ensure_router_added env agent router
      if r.1 then
        if agent.id ≠ src_agent.id then
          r.2 ++ (ensure_router_cleaned env src_agent router).2
        else r.2
      else r.2
    | [] =>
      let a := add_router (env.addAttempt depth) src_agent.id router.id
        env.retry 0
      a.2 ++ retry_failed_go env router src_agent b (depth + 1)

/-- `_retry_failed_router` on the source's signed retry counter. -/
def retry_failed_router (env : Env) (router : Router) (src_agent : Agent)
    (retry : Int) (depth : Nat) : List Action :=
  retry_failed_go env router src_agent (retry + 1).toNat depth

/-- Two successive calls of `_ensure_clean_router_on_host` on the same
agent and router.  The remote state is shared between the calls (the
environment is a static snapshot); this is sound for the case of
interest — a namespace whose interface listing is already empty — since
there the first call issues only the read-only listing command. -/
def ensure_clean_twice (env : Env) (agent : Agent) (router : Router) :
    (Except String Bool × List Action) × (Except String Bool × List Action) :=
  (ensure_clean_router_on_host env agent router,
   ensure_clean_router_on_host env agent router)

/-- Which branch `migrate_router` ended in. -/
inductive MigrateResult where
  | verifiedCleaned
  | verifyFailedReconciled
  | skippedNoPorts
  | notAddedReconciled
  | removeFailed
deriving Repr, DecidableEq

/-- `SequenceEvacuator.migrate_router`: detach from source, attach to
target, then verify on the target and clean the source (or reconcile);
a router with no admin-state-enabled ports skips verification; a failed
detach leaves the router on the source. -/
def migrate_router (env : Env) (target_agent src_agent : Agent)
    (router : Router) : MigrateResult × List Action :=
  let rem := remove_router env.removeAttempt src_agent.id router.id
    env.retry 0
  if rem.1 then
    let add := add_router env.addTargetAttempt target_agent.id router.id
      env.retry 0
    let ports := env.ports_up router.id
    if add.1 ∧ 0 < ports.length then
      let ens := ensure_router_added env target_agent router
      if ens.1 then
        let cl := ensure_router_cleaned env src_agent router
        (.verifiedCleaned, rem.2 ++ add.2 ++ ens.2 ++ cl.2)
      else
        (.verifyFailedReconciled, rem.2 ++ add.2 ++ ens.2 ++
          retry_failed_router env router src_agent (env.retry : Int) 0)
    else if ports.length = 0 then
      (.skippedNoPorts, rem.2 ++ add.2)
    else
      (.notAddedReconciled, rem.2 ++ add.2 ++
        retry_failed_router env router src_agent (env.retry : Int) 0)
  else
    (.removeFailed, rem.2)

/-! ### Predicates on actions and concrete test fixtures -/

/-- Is the action a remote shell command (as opposed to a control-plane
API call)? -/
def Action.isRemote : Action → Bool
  | .remote _ _ => true
  | _ => false

/-- Is the action a control-plane attach (`add_router_to_l3_agent`)? -/
def Action.isAddApi : Action → Bool
  | .addApi _ _ => true
  | _ => false

/-- Is the command destructive: an `ovs-vsctl` port deletion or an
`ip netns delete`? -/
def isDestructiveCmd : List String → Bool
  | "ovs-vsctl" :: _ => true
  | "ip" :: "netns" :: "delete" :: _ => true
  | _ => false

/-- Is the action a destructive remote command? -/
def Action.isDestructive : Action → Bool
  | .remote _ argv => isDestructiveCmd argv
  | _ => false

/-- Is the action an `ovs-vsctl` port deletion whose target port is
`nic`? -/
def Action.isDelPortOf (nic : String) : Action → Bool
  | .remote _ ("ovs-vsctl" :: rest) => rest.getLast? == some nic
  | _ => false

/-- Every action in the trace is a remote shell command. -/
def RemoteOnly (tr : List Action) : Prop := ∀ a ∈ tr, a.isRemote = true

/-- Concrete source agent used by witnesses. -/
def srcA : Agent := ⟨"src", "src-host"⟩

/-- Concrete target agent used by witnesses. -/
def tgtA : Agent := ⟨"tgt", "tgt-host"⟩

/-- Concrete router used by witnesses. -/
def r0 : Router := ⟨"r", []⟩

/-- Attempt outcomes: exception, exception, then success. -/
def attFFT : Nat → ApiAttempt := fun k => if k < 2 then .exn else .ok

/-- Base environment for witnesses: every remote command fails, the
router has no ports, every API attempt succeeds, no agent hosts the
router, retry budget 1. -/
def baseEnv : Env where
  remoteExec := fun _ _ => (1, "", "")
  ports_up := fun _ => []
  ports_all := fun _ => []
  floatingips := fun _ => 0
  removeAttempt := fun _ => .ok
  addTargetAttempt := fun _ => .ok
  addAttempt := fun _ _ => .ok
  hosting := fun _ => []
  retry := 1

/-- Failing environment for the verify-on-add bug: the router has one
enabled interface port and listing the interfaces of its namespace fails
remotely with an error that is not the namespace-absent message. -/
def envC1 : Env :=
  { baseEnv with
    remoteExec := fun _ cmd =>
      if cmd = cmd_list_nic_in_netns "qrouter-r" then (1, "", "boom")
      else (1, "", "")
    ports_up := fun _ => [⟨"0123456789abcdef", "network:router_interface"⟩] }

/-- Detach fails twice then succeeds; retry budget 2. -/
def envFFT2 : Env := { baseEnv with removeAttempt := attFFT, retry := 2 }

/-- Detach fails twice then succeeds; retry budget 1. -/
def envFFT1 : Env := { baseEnv with removeAttempt := attFFT, retry := 1 }

/-- The router is hosted by no agent and re-attach attempts raise. -/
def envUnowned : Env := { baseEnv with addAttempt := fun _ _ => .exn }

/-- Remote listing succeeds with interfaces `qr-x` and `lo`. -/
def envListNics : Env := { baseEnv with remoteExec := fun _ _ => (0, "qr-x\nlo", "") }

/-- Remote listing succeeds with only `lo` in the namespace. -/
def envOnlyLo : Env := { baseEnv with remoteExec := fun _ _ => (0, "lo", "") }

/-! ### Lemmas about the balance picker -/

/-- Loads whose pairwise spread is at most 1 (equivalently,
max load − min load ≤ 1). -/
def Spread1 (l : List Nat) : Prop := ∀ x ∈ l, ∀ y ∈ l, x ≤ y + 1

theorem argminIdx_lt_length {l : List Nat} (h : l ≠ []) :
    argminIdx l < l.length := by
  induction l with
  | nil => exact absurd rfl h
  | cons x xs ih =>
    simp only [argminIdx]
    by_cases hall : xs.all (fun y => x ≤ y) = true
    · simp [hall]
    · have hxs : xs ≠ [] := by
        intro hnil; subst hnil; simp at hall
      simp only [hall, if_neg]
      simpa [List.length_cons, Nat.succ_lt_succ_iff] using ih hxs

theorem argminIdx_le {l : List Nat} : ∀ {y : Nat}, y ∈ l →
    l.getD (argminIdx l) 0 ≤ y := by
  induction l with
  | nil => intro y hy; cases hy
  | cons x xs ih =>
    intro y hy
    simp only [argminIdx]
    by_cases hall : xs.all (fun y => x ≤ y) = true
    · simp only [hall, if_pos, List.getD_cons_zero]
      rcases List.mem_cons.1 hy with h | h
      · exact h ▸ Nat.le_refl x
      · rw [List.all_eq_true] at hall
        simpa using hall y h
    · simp only [hall, if_neg, List.getD_cons_succ]
      rcases List.mem_cons.1 hy with h | h
      · subst h
        rw [List.all_eq_true] at hall
        push_neg at hall
        obtain ⟨z, hz, hzx⟩ := hall
        have hzx' : z < y := by simpa using hzx
        exact le_of_lt (lt_of_le_of_lt (ih hz) hzx')
      · exact ih h

theorem getD_argminIdx_mem {l : List Nat} (h : l ≠ []) :
    l.getD (argminIdx l) 0 ∈ l := by
  have hlt := argminIdx_lt_length h
  rw [List.getD_eq_getElem l 0 hlt]
  exact List.getElem_mem hlt

/-- Incrementing the current first-minimum load preserves spread ≤ 1. -/
theorem spread1_set_argmin {l : List Nat} (hl : l ≠ []) (h : Spread1 l) :
    Spread1 (l.set (argminIdx l) (l.getD (argminIdx l) 0 + 1)) := by
  intro x hx y hy
  set m := l.getD (argminIdx l) 0 with hm
  have hmem : m ∈ l := getD_argminIdx_mem hl
  rcases List.mem_or_eq_of_mem_set hx with hx' | hx' <;>
    rcases List.mem_or_eq_of_mem_set hy with hy' | hy'
  · exact h x hx' y hy'
  · subst hy'
    exact le_trans (h x hx' m hmem) (Nat.succ_le_succ (Nat.le_succ m))
  · subst hx'
    exact Nat.succ_le_succ (argminIdx_le hy')
  · subst hx'; subst hy'
    exact Nat.le_succ _

/-- The greedy loop of `BalancePicker.init` preserves spread ≤ 1. -/
theorem balanceInitGo_spread (rs : List Router) :
    ∀ totals asgn finalTotals, totals ≠ [] → Spread1 totals →
      balanceInitGo rs totals = .ok (asgn, finalTotals) → Spread1 finalTotals := by
  induction rs with
  | nil =>
    intro totals asgn finalTotals _ hsp h
    simp only [balanceInitGo, Except.ok.injEq, Prod.mk.injEq] at h
    exact h.2 ▸ hsp
  | cons r rs ih =>
    intro totals asgn finalTotals hne hsp h
    simp only [balanceInitGo] at h
    rw [if_neg (by simpa [List.isEmpty_iff] using hne)] at h
    rcases heq : balanceInitGo rs
        (totals.set (argminIdx totals) (totals.getD (argminIdx totals) 0 + 1)) with e | p
    · rw [heq] at h; cases h
    · obtain ⟨asgn', fin'⟩ := p
      rw [heq] at h
      simp only [Except.ok.injEq, Prod.mk.injEq] at h
      refine h.2 ▸ ih _ _ _ ?_ (spread1_set_argmin hne hsp) heq
      intro hnil
      have hlen := congrArg List.length hnil
      rw [List.length_set] at hlen
      exact hne (List.length_eq_zero.mp hlen)

/-- Characterisation of the cycle picker loop: with a non-empty
destination list, the loop succeeds and the router at position `k`
(0-indexed) is assigned the destination at position
`(cursor + k) % D`. -/
theorem cyclePickerInitGo_spec (dests : List String) (hD : dests ≠ []) :
    ∀ (rs : List Router) (cursor : Nat), ∃ asgn,
      cyclePickerInitGo dests rs cursor = .ok asgn ∧
      ∀ k, k < rs.length →
        asgn.get? k = some (dests.getD ((cursor + k) % dests.length) "",
          rs.getD k ⟨"", []⟩) := by
  intro rs
  induction rs with
  | nil =>
    intro cursor
    exact ⟨[], rfl, fun k hk => absurd hk (by simp)⟩
  | cons r rs ih =>
    intro cursor
    obtain ⟨asgn', hgo, hspec⟩ := ih (cursor + 1)
    have hlen : 0 < dests.length := List.length_pos.mpr hD
    have hidx : cursor % dests.length < dests.length := Nat.mod_lt _ hlen
    have hnext : cycleNext dests cursor =
        some (dests.getD (cursor % dests.length) "") := by
      simp only [cycleNext]
      rw [if_neg (by simpa [List.isEmpty_iff] using hD),
        List.get?_eq_get hidx, List.getD_eq_getElem dests "" hidx,
        List.get_eq_getElem]
    refine ⟨(dests.getD (cursor % dests.length) "", r) :: asgn', ?_, ?_⟩
    · simp only [cyclePickerInitGo, hnext, hgo]
    · intro k hk
      match k with
      | 0 => simp
      | k + 1 =>
        have hk' : k < rs.length := by simpa using hk
        rw [List.get?_cons_succ, hspec k hk', List.getD_cons_succ]
        have harith : cursor + 1 + k = cursor + (k + 1) := by omega
        rw [harith]

/-- **C2 (counterexample to the claim as stated).**  With an empty
destination set and a non-empty source workload list, neither picker's
`init` returns normally: `CyclePicker.init` hits `StopIteration` from the
exhausted `itertools.cycle`, and `BalancePicker.init` hits `ValueError`
from `min()` over an empty sequence. -/
theorem pickerInit_empty_dest_nonempty_cex :
    cyclePickerInit [] [⟨"r0", []⟩] = .error "StopIteration" ∧
    balanceInitGo [⟨"r0", []⟩] ([] : List Nat) =
      .error "ValueError: min() arg is an empty sequence" :=
  ⟨rfl, rfl⟩

/-- **C2 (amended).**  With an empty destination set, `init` returns
normally with zero assignable workloads only when the source workload
list is itself empty; for every non-empty source workload list both
`BalancePicker.init` and `CyclePicker.init` raise, so the exception
propagates out of the engine's `run` instead of reporting the workloads
as unmigrated. -/
theorem pickerInit_empty_dest (routers : List Router) :
    (routers = [] →
      balanceInitGo routers ([] : List Nat) = .ok ([], []) ∧
      cyclePickerInit [] routers = .ok []) ∧
    (routers ≠ [] →
      balanceInitGo routers ([] : List Nat) =
        .error "ValueError: min() arg is an empty sequence" ∧
      cyclePickerInit [] routers = .error "StopIteration") := by
  constructor
  · rintro rfl; exact ⟨rfl, rfl⟩
  · intro hne
    match routers, hne with
    | r :: rs, _ => exact ⟨rfl, rfl⟩

/-- Witness for `pickerInit_empty_dest` at concrete inputs. -/
theorem pickerInit_empty_dest_witness :
    cyclePickerInit [] ([] : List Router) = .ok [] ∧
    cyclePickerInit [] [⟨"r0", []⟩] = .error "StopIteration" :=
  ⟨((pickerInit_empty_dest []).1 rfl).2,
   ((pickerInit_empty_dest [⟨"r0", []⟩]).2 (by decide)).2⟩

/-- **C3 (counterexample to the claim as stated).**  With arbitrary
(unequal) initial per-destination loads the claimed bound fails: initial
loads `[10, 0]` and one workload give post-assignment loads `[10, 1]`,
whose maximum exceeds the minimum by 9 > 1. -/
theorem balanceInit_unequal_loads_cex :
    balanceInitGo [⟨"r0", []⟩] [10, 0] = .ok ([(1, ⟨"r0", []⟩)], [10, 1]) ∧
    ([10, 1] : List Nat).maximum = (10 : Nat) ∧
    ([10, 1] : List Nat).minimum = (1 : Nat) ∧
    ¬ ((10 : Nat) ≤ 1 + 1) :=
  ⟨rfl, by decide, by decide, by decide⟩

/-- **C3 (amended).**  For every source workload list and non-empty
destination set whose initial per-destination loads already have spread
at most 1 (in particular, all equal), the greedy min-load assignment of
`BalancePicker.init` keeps the maximum post-assignment load within 1 of
the minimum. -/
theorem balanceInit_spread_le_one (routers : List Router)
    (totals : List Nat) (asgn : List (Nat × Router))
    (finalTotals : List Nat) (M m : Nat)
    (hne : totals ≠ []) (hsp : Spread1 totals)
    (h : balanceInitGo routers totals = .ok (asgn, finalTotals))
    (hM : finalTotals.maximum = M) (hm : finalTotals.minimum = m) :
    M ≤ m + 1 := by
  have hspf := balanceInitGo_spread routers totals asgn finalTotals hne hsp h
  exact hspf M (List.maximum_mem hM) m (List.minimum_mem hm)

/-- Witness for `balanceInit_spread_le_one`: three workloads onto two
equally-loaded destinations give final loads `[2, 1]`. -/
theorem balanceInit_spread_le_one_witness : (2 : Nat) ≤ 1 + 1 :=
  balanceInit_spread_le_one [⟨"r0", []⟩, ⟨"r1", []⟩, ⟨"r2", []⟩] [0, 0]
    [(0, ⟨"r0", []⟩), (1, ⟨"r1", []⟩), (0, ⟨"r2", []⟩)] [2, 1] 2 1
    (by decide) (by unfold Spread1; decide) rfl (by decide) (by decide)

/-- **C7.**  For every non-empty destination list and every source
workload list, `CyclePicker.init` assigns the workload at 0-indexed
listing position `k` to the destination at position `k mod D`. -/
theorem cycleInit_round_robin (dests : List String) (routers : List Router)
    (hD : dests ≠ []) :
    ∃ asgn, cyclePickerInit dests routers = .ok asgn ∧
      ∀ k, k < routers.length →
        asgn.get? k = some (dests.getD (k % dests.length) "",
          routers.getD k ⟨"", []⟩) := by
  obtain ⟨asgn, hgo, hspec⟩ := cyclePickerInitGo_spec dests hD routers 0
  exact ⟨asgn, hgo, fun k hk => by simpa using hspec k hk⟩

/-- Witness for `cycleInit_round_robin` at concrete inputs. -/
theorem cycleInit_round_robin_witness :
    ∃ asgn, cyclePickerInit ["a", "b"]
        [⟨"r0", []⟩, ⟨"r1", []⟩, ⟨"r2", []⟩] = .ok asgn ∧
      ∀ k, k < ([⟨"r0", []⟩, ⟨"r1", []⟩, ⟨"r2", []⟩] : List Router).length →
        asgn.get? k = some ((["a", "b"] : List String).getD (k % 2) "",
          ([⟨"r0", []⟩, ⟨"r1", []⟩, ⟨"r2", []⟩] : List Router).getD k ⟨"", []⟩) :=
  cycleInit_round_robin ["a", "b"] [⟨"r0", []⟩, ⟨"r1", []⟩, ⟨"r2", []⟩]
    (by decide)

/-! ### Trace lemmas for the evacuator -/

theorem remove_router_trace_eq (att : Nat → ApiAttempt) (aid rid : String) :
    ∀ retry k, ∀ a ∈ (remove_router att aid rid retry k).2,
      a = .removeApi aid rid := by
  intro retry
  induction retry with
  | zero =>
    intro k a ha
    unfold remove_router at ha
    rcases h : att k <;> rw [h] at ha <;>
      simpa using ha
  | succ r ih =>
    intro k a ha
    unfold remove_router at ha
    rcases h : att k <;> rw [h] at ha <;>
      simp only [List.mem_cons, List.mem_singleton, List.not_mem_nil,
        or_false] at ha
    · rcases ha with ha | ha
      · exact ha
      · exact ih (k + 1) a ha
    · rcases ha with ha | ha
      · exact ha
      · exact ih (k + 1) a ha
    · exact ha

theorem add_router_trace_eq (att : Nat → ApiAttempt) (aid rid : String) :
    ∀ retry k, ∀ a ∈ (add_router att aid rid retry k).2,
      a = .addApi aid rid := by
  intro retry
  induction retry with
  | zero =>
    intro k a ha
    unfold add_router at ha
    rcases h : att k <;> rw [h] at ha <;>
      simpa using ha
  | succ r ih =>
    intro k a ha
    unfold add_router at ha
    rcases h : att k <;> rw [h] at ha <;>
      simp only [List.mem_cons, List.mem_singleton, List.not_mem_nil,
        or_false] at ha
    · rcases ha with ha | ha
      · exact ha
      · exact ih (k + 1) a ha
    · rcases ha with ha | ha
      · exact ha
      · exact ih (k + 1) a ha
    · exact ha

theorem add_router_trace_length (att : Nat → ApiAttempt) (aid rid : String) :
    ∀ retry k, (add_router att aid rid retry k).2.length ≤ retry + 1 := by
  intro retry
  induction retry with
  | zero =>
    intro k
    unfold add_router
    rcases att k <;> simp
  | succ r ih =>
    intro k
    unfold add_router
    rcases att k <;> simp <;> exact ih (k + 1)

theorem add_router_trace_cons (att : Nat → ApiAttempt) (aid rid : String)
    (retry k : Nat) :
    ∃ t, (add_router att aid rid retry k).2 = .addApi aid rid :: t := by
  unfold add_router
  rcases att k <;> rcases retry <;> exact ⟨_, rfl⟩

theorem remoteOnly_append {t1 t2 : List Action} (h1 : RemoteOnly t1)
    (h2 : RemoteOnly t2) : RemoteOnly (t1 ++ t2) := by
  intro a ha
  rcases List.mem_append.mp ha with h | h
  exacts [h1 a h, h2 a h]

theorem rrun_trace (env : Env) (host : String) (cmd : List String) :
    (rrun env host cmd).2 = [.remote host cmd] := rfl

theorem list_nics_trace (env : Env) (host netns : String) :
    (list_nics_in_netns_on_remote env host netns).2 =
      [.remote host (cmd_list_nic_in_netns netns)] := rfl

theorem list_nics_remoteOnly (env : Env) (host netns : String) :
    RemoteOnly (list_nics_in_netns_on_remote env host netns).2 := by
  intro a ha
  rw [list_nics_trace] at ha
  simp only [List.mem_singleton] at ha
  subst ha; rfl

theorem verify_router_snat_rule_remoteOnly (env : Env) (agent : Agent)
    (router : Router) :
    RemoteOnly (verify_router_snat_rule env agent router).2 := by
  intro a ha
  simp only [verify_router_snat_rule, rrun_trace, List.mem_singleton] at ha
  subst ha; rfl

theorem verify_ipforward_remoteOnly (env : Env) (agent : Agent)
    (router : Router) :
    RemoteOnly (verify_ipforward_on_host env agent router).2 := by
  intro a ha
  simp only [verify_ipforward_on_host, rrun_trace, List.mem_singleton] at ha
  subst ha; rfl

theorem verify_ports_trace (env : Env) (agent : Agent) (router : Router) :
    (verify_ports_on_host env agent router).2 =
      if (env.ports_up router.id).length = 0 then []
      else [.remote agent.host
        (cmd_list_nic_in_netns ("qrouter-" ++ router.id))] := by
  unfold verify_ports_on_host
  dsimp only
  split
  · rfl
  · split <;> rfl

theorem verify_ports_remoteOnly (env : Env) (agent : Agent)
    (router : Router) :
    RemoteOnly (verify_ports_on_host env agent router).2 := by
  intro a ha
  rw [verify_ports_trace] at ha
  split at ha
  · simp at ha
  · simp only [List.mem_singleton] at ha
    subst ha; rfl

theorem verify_router_remoteOnly (env : Env) (agent : Agent)
    (router : Router) :
    RemoteOnly (verify_router_on_host env agent router).2 := by
  unfold verify_router_on_host
  dsimp only
  split
  · exact verify_ports_remoteOnly env agent router
  · exact verify_ports_remoteOnly env agent router
  · exact remoteOnly_append (verify_ports_remoteOnly env agent router)
      (verify_ipforward_remoteOnly env agent router)

theorem wait_until_go_remoteOnly (f : Nat → Except String Bool × List Action)
    (hf : ∀ i, RemoteOnly (f i).2) (wi lw wt : Nat) :
    ∀ fuel w i, RemoteOnly (wait_until_go f wi lw wt fuel w i).2 := by
  intro fuel
  induction fuel with
  | zero => intro w i a ha; simp [wait_until_go] at ha
  | succ fu ih =>
    intro w i
    unfold wait_until_go
    dsimp only
    split
    · split
      · exact hf i
      · exact hf i
      · split
        · exact hf i
        · exact remoteOnly_append (hf i) (ih (w + wi) (i + 1))
    · intro a ha; simp at ha

theorem wait_until_remoteOnly (f : Nat → Except String Bool × List Action)
    (hf : ∀ i, RemoteOnly (f i).2) (wi lw wt : Nat) :
    RemoteOnly (wait_until f wi lw wt).2 :=
  wait_until_go_remoteOnly f hf wi lw wt _ _ _

theorem ensure_router_added_body_remoteOnly (env : Env) (agent : Agent)
    (router : Router) :
    RemoteOnly (ensure_router_added_body env agent router).2 := by
  unfold ensure_router_added_body
  dsimp only
  have h1 : RemoteOnly (wait_until (fun _ =>
      ((.ok (verify_router_snat_rule env agent router).1 : Except String Bool),
        (verify_router_snat_rule env agent router).2)) 1 1 15).2 :=
    wait_until_remoteOnly _
      (fun _ => verify_router_snat_rule_remoteOnly env agent router) 1 1 15
  have h2 : RemoteOnly (wait_until
      (fun _ => verify_router_on_host env agent router) 1 1
      (extra_timeout_for_router env router)).2 :=
    wait_until_remoteOnly _
      (fun _ => verify_router_remoteOnly env agent router) 1 1 _
  split
  · exact remoteOnly_append h1 (verify_router_remoteOnly env agent router)
  · exact remoteOnly_append h1 (verify_router_remoteOnly env agent router)
  · exact remoteOnly_append
      (remoteOnly_append h1 (verify_router_remoteOnly env agent router)) h2

theorem ensure_router_added_remoteOnly (env : Env) (agent : Agent)
    (router : Router) :
    RemoteOnly (ensure_router_added env agent router).2 := by
  unfold ensure_router_added
  dsimp only
  split
  · exact ensure_router_added_body_remoteOnly env agent router
  · exact ensure_router_added_body_remoteOnly env agent router

/-- Every action of the forced nic cleanup is an `ovs-vsctl` port
deletion, on the given host, of one of the listed nics. -/
theorem mem_clean_nics (env : Env) (host : String) (nics : List String)
    (a : Action) (ha : a ∈ clean_nics_on_host env host nics) :
    ∃ nic ∈ nics, ∃ br, a = .remote host (cmd_delete_ovs_port nic br 10) := by
  unfold clean_nics_on_host at ha
  simp only [List.mem_flatten, List.mem_map] at ha
  obtain ⟨l, ⟨nic, hnic, hl⟩, hal⟩ := ha
  subst hl
  refine ⟨nic, hnic, ?_⟩
  split at hal
  · simp only [rrun_trace, List.mem_singleton] at hal
    exact ⟨_, hal⟩
  · split at hal <;>
      simp only [rrun_trace, List.mem_singleton] at hal <;>
      exact ⟨_, hal⟩

theorem clean_nics_remoteOnly (env : Env) (host : String)
    (nics : List String) : RemoteOnly (clean_nics_on_host env host nics) := by
  intro a ha
  obtain ⟨nic, _, br, rfl⟩ := mem_clean_nics env host nics a ha
  rfl

theorem clean_netns_trace (env : Env) (host ns : String) :
    clean_netns_on_host env host ns = [.remote host (cmd_delete_netns ns)] :=
  rfl

theorem clean_netns_remoteOnly (env : Env) (host ns : String) :
    RemoteOnly (clean_netns_on_host env host ns) := by
  intro a ha
  rw [clean_netns_trace] at ha
  simp only [List.mem_singleton] at ha
  subst ha; rfl

theorem ensure_clean_remoteOnly (env : Env) (agent : Agent)
    (router : Router) :
    RemoteOnly (ensure_clean_router_on_host env agent router).2 := by
  unfold ensure_clean_router_on_host
  dsimp only
  split
  · exact list_nics_remoteOnly env agent.host _
  · split
    · exact list_nics_remoteOnly env agent.host _
    · exact remoteOnly_append
        (remoteOnly_append (list_nics_remoteOnly env agent.host _)
          (clean_nics_remoteOnly env agent.host _))
        (clean_netns_remoteOnly env agent.host _)

theorem ensure_router_cleaned_remoteOnly (env : Env) (agent : Agent)
    (router : Router) :
    RemoteOnly (ensure_router_cleaned env agent router).2 := by
  unfold ensure_router_cleaned
  dsimp only
  split
  · exact ensure_clean_remoteOnly env agent router
  · exact ensure_clean_remoteOnly env agent router

/-- The bounded retry of `_remove_router` succeeds iff one of the first
`retry + 1` attempts (counting from attempt `k`) succeeds. -/
theorem remove_router_succeeds_iff (att : Nat → ApiAttempt)
    (aid rid : String) :
    ∀ retry k, ((remove_router att aid rid retry k).1 = true ↔
      ∃ i, i ≤ retry ∧ att (k + i) = .ok) := by
  intro retry
  induction retry with
  | zero =>
    intro k
    rcases h : att k <;> unfold remove_router <;> rw [h] <;> dsimp only
    · simp only [Bool.false_eq_true, false_iff]
      rintro ⟨i, hi, hok⟩
      have hz : i = 0 := Nat.le_zero.mp hi
      subst hz
      rw [Nat.add_zero, h] at hok
      cases hok
    · simp only [Bool.false_eq_true, false_iff]
      rintro ⟨i, hi, hok⟩
      have hz : i = 0 := Nat.le_zero.mp hi
      subst hz
      rw [Nat.add_zero, h] at hok
      cases hok
    · simp only [true_iff]
      exact ⟨0, Nat.le_refl 0, by rw [Nat.add_zero]; exact h⟩
  | succ r ih =>
    intro k
    rcases h : att k <;> unfold remove_router <;> rw [h] <;> dsimp only
    · rw [ih (k + 1)]
      constructor
      · rintro ⟨i, hi, hok⟩
        exact ⟨i + 1, by omega, by rw [show k + (i + 1) = k + 1 + i by omega]; exact hok⟩
      · rintro ⟨i, hi, hok⟩
        match i, hok with
        | 0, hok => rw [Nat.add_zero, h] at hok; cases hok
        | j + 1, hok =>
          exact ⟨j, by omega, by rw [show k + 1 + j = k + (j + 1) by omega]; exact hok⟩
    · rw [ih (k + 1)]
      constructor
      · rintro ⟨i, hi, hok⟩
        exact ⟨i + 1, by omega, by rw [show k + (i + 1) = k + 1 + i by omega]; exact hok⟩
      · rintro ⟨i, hi, hok⟩
        match i, hok with
        | 0, hok => rw [Nat.add_zero, h] at hok; cases hok
        | j + 1, hok =>
          exact ⟨j, by omega, by rw [show k + 1 + j = k + (j + 1) by omega]; exact hok⟩
    · simp only [true_iff]
      exact ⟨0, Nat.zero_le _, by rw [Nat.add_zero]; exact h⟩

/-- **C5.**  `_remove_router` succeeds iff one of the first `retry + 1`
detach attempts succeeds; with the fail/fail/succeed attempt pattern, a
retry budget of 2 succeeds and the engine proceeds to attach, while a
budget of 1 fails, performs no attach (no control-plane add call), and
leaves the router on the source. -/
theorem remove_router_retry_semantics :
    (∀ (att : Nat → ApiAttempt) (aid rid : String) (retry : Nat),
      ((remove_router att aid rid retry 0).1 = true ↔
        ∃ i, i ≤ retry ∧ att i = .ok)) ∧
    (remove_router attFFT srcA.id r0.id 2 0).1 = true ∧
    (migrate_router envFFT2 tgtA srcA r0).2.any (fun a => a.isAddApi) =
      true ∧
    (remove_router attFFT srcA.id r0.id 1 0).1 = false ∧
    (migrate_router envFFT1 tgtA srcA r0).1 = .removeFailed ∧
    (migrate_router envFFT1 tgtA srcA r0).2.all (fun a => !a.isAddApi) =
      true := by
  refine ⟨?_, by decide, by decide, by decide, by decide, by decide⟩
  intro att aid rid retry
  simpa using remove_router_succeeds_iff att aid rid retry 0

/-- **C1.**  In `_ensure_router_added` the catch-all `except` converts
any exception raised during the verification calls into a `True`
("verified") result — the opposite of the claimed behaviour.  The last
two conjuncts evaluate the code at a concrete failing input: the remote
interface listing fails with an error that is not the namespace-absent
message, the body raises, and the router is reported verified. -/
theorem ensure_router_added_swallows_exception :
    (∀ (env : Env) (agent : Agent) (router : Router) (e : String),
      (ensure_router_added_body env agent router).1 = .error e →
      (ensure_router_added env agent router).1 = true) ∧
    (ensure_router_added_body envC1 ⟨"a", "h"⟩ r0).1 =
      .error "Failed list nics in namespace qrouter-r on host [h]" ∧
    (ensure_router_added envC1 ⟨"a", "h"⟩ r0).1 = true := by
  refine ⟨?_, rfl, rfl⟩
  intro env agent router e h
  unfold ensure_router_added
  dsimp only
  split
  · rfl
  · rename_i v heq
    rw [h] at heq
    cases heq

/-- When the router has no admin-state-enabled ports, `migrate_router`
reduces to the detach/attach API calls: on successful detach it takes
the skip branch, on failed detach it leaves the router on the source. -/
theorem migrate_router_no_ports_eq (env : Env)
    (target_agent src_agent : Agent) (router : Router)
    (hports : env.ports_up router.id = []) :
    migrate_router env target_agent src_agent router =
      if (remove_router env.removeAttempt src_agent.id router.id
          env.retry 0).1 then
        (MigrateResult.skippedNoPorts,
          (remove_router env.removeAttempt src_agent.id router.id
            env.retry 0).2 ++
          (add_router env.addTargetAttempt target_agent.id router.id
            env.retry 0).2)
      else
        (MigrateResult.removeFailed,
          (remove_router env.removeAttempt src_agent.id router.id
            env.retry 0).2) := by
  unfold migrate_router
  dsimp only
  rw [hports]
  split
  · simp
  · rfl

/-- **C4.**  For every router whose set of admin-state-enabled ports is
empty, `migrate_router` issues no remote host command at all (so no
snat-rule poll, no interface listing, no IP-forwarding read and no
source-host cleanup command), and when the detach succeeded the router
is accepted via the skip branch without verification. -/
theorem migrate_router_no_enabled_ports (env : Env)
    (target_agent src_agent : Agent) (router : Router)
    (hports : env.ports_up router.id = []) :
    (∀ a ∈ (migrate_router env target_agent src_agent router).2,
      a.isRemote = false) ∧
    ((remove_router env.removeAttempt src_agent.id router.id
        env.retry 0).1 = true →
      (migrate_router env target_agent src_agent router).1 =
        MigrateResult.skippedNoPorts) := by
  have heq := migrate_router_no_ports_eq env target_agent src_agent router
    hports
  constructor
  · intro a ha
    rw [heq] at ha
    split at ha
    · rcases List.mem_append.mp ha with h | h
      · rw [remove_router_trace_eq env.removeAttempt src_agent.id router.id
          env.retry 0 a h]
        rfl
      · rw [add_router_trace_eq env.addTargetAttempt target_agent.id
          router.id env.retry 0 a h]
        rfl
    · rw [remove_router_trace_eq env.removeAttempt src_agent.id router.id
        env.retry 0 a ha]
      rfl
  · intro hrem
    rw [heq, if_pos hrem]

/-- Witness for `migrate_router_no_enabled_ports` at concrete inputs. -/
theorem migrate_router_no_enabled_ports_witness :
    (migrate_router baseEnv tgtA srcA r0).1 =
      MigrateResult.skippedNoPorts :=
  (migrate_router_no_enabled_ports baseEnv tgtA srcA r0 rfl).2 (by decide)

theorem countP_addApi_eq_zero {tr : List Action} (h : RemoteOnly tr) :
    tr.countP (fun a => a.isAddApi) = 0 := by
  rw [List.countP_eq_zero]
  intro a ha
  have hr := h a ha
  cases a <;> simp_all [Action.isRemote, Action.isAddApi]

/-- Behaviour of the reconciliation loop, by remaining recursion levels
`b` (`b = retry + 1`): every control-plane attach it issues targets the
source agent, the number of attach calls is bounded by the budget, and
when the control plane reports the router unowned the first action is a
re-attach to the source. -/
theorem retry_failed_go_spec (env : Env) (router : Router)
    (src_agent : Agent) :
    ∀ b depth,
      (∀ aId rId, Action.addApi aId rId ∈
          retry_failed_go env router src_agent b depth →
        aId = src_agent.id ∧ rId = router.id) ∧
      ((retry_failed_go env router src_agent b depth).countP
        (fun a => a.isAddApi) ≤ b * (env.retry + 1)) ∧
      (∀ b', b = b' + 1 → env.hosting depth = [] →
        ∃ t, retry_failed_go env router src_agent b depth =
          Action.addApi src_agent.id router.id :: t) := by
  intro b
  induction b with
  | zero =>
    intro depth
    refine ⟨?_, ?_, ?_⟩
    · intro aId rId hmem; simp [retry_failed_go] at hmem
    · simp [retry_failed_go]
    · intro b' hb; exact absurd hb (by omega)
  | succ b ih =>
    intro depth
    rcases hh : env.hosting depth with _ | ⟨ag, rest⟩
    · have heq : retry_failed_go env router src_agent (b + 1) depth =
          (add_router (env.addAttempt depth) src_agent.id router.id
            env.retry 0).2 ++
          retry_failed_go env router src_agent b (depth + 1) := by
        simp only [retry_failed_go, hh]
      refine ⟨?_, ?_, ?_⟩
      · intro aId rId hmem
        rw [heq] at hmem
        rcases List.mem_append.mp hmem with h | h
        · have hx := add_router_trace_eq (env.addAttempt depth)
            src_agent.id router.id env.retry 0 _ h
          injection hx with h1 h2
          exact ⟨h1, h2⟩
        · exact (ih (depth + 1)).1 aId rId h
      · rw [heq, List.countP_append]
        have h1 : ((add_router (env.addAttempt depth) src_agent.id
            router.id env.retry 0).2).countP (fun a => a.isAddApi) ≤
            env.retry + 1 :=
          le_trans (List.countP_le_length _)
            (add_router_trace_length (env.addAttempt depth) src_agent.id
              router.id env.retry 0)
        have h2 := (ih (depth + 1)).2.1
        calc _ ≤ (env.retry + 1) + b * (env.retry + 1) :=
              Nat.add_le_add h1 h2
          _ = (b + 1) * (env.retry + 1) := by ring
      · intro b' _ hhost
        obtain ⟨t, ht⟩ := add_router_trace_cons (env.addAttempt depth)
          src_agent.id router.id env.retry 0
        rw [heq, ht]
        exact ⟨t ++ retry_failed_go env router src_agent b (depth + 1),
          rfl⟩
    · have hro : RemoteOnly (retry_failed_go env router src_agent (b + 1)
          depth) := by
        unfold retry_failed_go
        rw [hh]
        dsimp only
        split
        · split
          · exact remoteOnly_append
              (ensure_router_added_remoteOnly env ag router)
              (ensure_router_cleaned_remoteOnly env src_agent router)
          · exact ensure_router_added_remoteOnly env ag router
        · exact ensure_router_added_remoteOnly env ag router
      refine ⟨?_, ?_, ?_⟩
      · intro aId rId hmem
        exact absurd (hro _ hmem) (by simp [Action.isRemote])
      · rw [countP_addApi_eq_zero hro]
        exact Nat.zero_le _
      · intro b' _ hhost
        simp [hh] at hhost

/-- **C6.**  During reconciliation, when the control plane reports the
router hosted by no agent, the engine re-attaches it to the original
source agent (its first action is an attach to the source) and recurses
with the budget decremented; a negative budget returns without any
action; every control-plane attach issued anywhere in the reconciliation
targets the source agent, and the total number of attach calls is
bounded by the budget. -/
theorem retry_failed_router_source_only (env : Env) (router : Router)
    (src_agent : Agent) (retry : Int) (depth : Nat) :
    (retry < 0 →
      retry_failed_router env router src_agent retry depth = []) ∧
    (∀ aId rId, Action.addApi aId rId ∈
        retry_failed_router env router src_agent retry depth →
      aId = src_agent.id ∧ rId = router.id) ∧
    ((retry_failed_router env router src_agent retry depth).countP
        (fun a => a.isAddApi) ≤ (retry + 1).toNat * (env.retry + 1)) ∧
    (0 ≤ retry → env.hosting depth = [] →
      ∃ t, retry_failed_router env router src_agent retry depth =
        Action.addApi src_agent.id router.id :: t) := by
  unfold retry_failed_router
  refine ⟨?_,
    (retry_failed_go_spec env router src_agent (retry + 1).toNat depth).1,
    (retry_failed_go_spec env router src_agent (retry + 1).toNat depth).2.1,
    ?_⟩
  · intro hneg
    have hz : (retry + 1).toNat = 0 := by omega
    rw [hz]
    rfl
  · intro hpos hhost
    have hb : (retry + 1).toNat = ((retry + 1).toNat - 1) + 1 := by omega
    exact (retry_failed_go_spec env router src_agent (retry + 1).toNat
      depth).2.2 _ hb hhost

/-- Witness for `retry_failed_router_source_only` at concrete inputs. -/
theorem retry_failed_router_source_only_witness :
    ∃ t, retry_failed_router envUnowned r0 srcA 1 0 =
      Action.addApi srcA.id r0.id :: t :=
  (retry_failed_router_source_only envUnowned r0 srcA 1 0).2.2.2
    (by decide) rfl

/-- **C8.**  `_list_nics_in_netns_on_remote` returns the parsed
interface list on remote success; on remote failure it returns the
empty list exactly when the error output contains the namespace-absent
string, and raises on every other failure. -/
theorem list_nics_failure_semantics (env : Env) (host netns : String)
    (rc : Int) (out err : String)
    (h : env.remoteExec host (cmd_list_nic_in_netns netns) =
      (rc, out, err)) :
    (rc = 0 → (list_nics_in_netns_on_remote env host netns).1 =
      .ok ((splitLines out).filter (fun one_nic => one_nic ≠ "lo"))) ∧
    (rc ≠ 0 →
      (strContains err "Cannot open network namespace" = true →
        (list_nics_in_netns_on_remote env host netns).1 = .ok []) ∧
      (strContains err "Cannot open network namespace" = false →
        (list_nics_in_netns_on_remote env host netns).1 =
          .error ("Failed list nics in namespace " ++ netns ++
            " on host [" ++ host ++ "]"))) := by
  constructor
  · intro h0
    have hr : rrun env host (cmd_list_nic_in_netns netns) =
        ((true, out), [.remote host (cmd_list_nic_in_netns netns)]) := by
      unfold rrun
      rw [h]
      simp [h0]
    unfold list_nics_in_netns_on_remote
    rw [hr]
    rfl
  · intro hne
    have hr : rrun env host (cmd_list_nic_in_netns netns) =
        ((false, err), [.remote host (cmd_list_nic_in_netns netns)]) := by
      unfold rrun
      rw [h]
      simp [hne]
    constructor
    · intro hc
      unfold list_nics_in_netns_on_remote
      rw [hr]
      dsimp only
      rw [if_neg (by simp), if_pos hc]
    · intro hc
      unfold list_nics_in_netns_on_remote
      rw [hr]
      dsimp only
      rw [if_neg (by simp), if_neg (by simp [hc])]

/-- Witness for `list_nics_failure_semantics` at concrete inputs. -/
theorem list_nics_failure_semantics_witness :
    (list_nics_in_netns_on_remote envListNics "h" "qrouter-r").1 =
      .ok ["qr-x"] := by
  rw [(list_nics_failure_semantics envListNics "h" "qrouter-r" 0
    "qr-x\nlo" "" (by rfl)).1 rfl]
  rfl

/-- `_ensure_clean_router_on_host` returns true whenever the namespace
listing does not raise. -/
theorem ensure_clean_ok_of_ok (env : Env) (agent : Agent)
    (router : Router) (nics : List String)
    (h : (list_nics_in_netns_on_remote env agent.host
      ("qrouter-" ++ router.id)).1 = .ok nics) :
    (ensure_clean_router_on_host env agent router).1 = .ok true := by
  unfold ensure_clean_router_on_host
  dsimp only
  split
  · rename_i e heq
    rw [h] at heq
    cases heq
  · split <;> rfl

/-- On an already-empty interface listing, `_ensure_clean_router_on_host`
returns true and its whole trace is the single read-only listing
command. -/
theorem ensure_clean_of_empty (env : Env) (agent : Agent)
    (router : Router)
    (h : (list_nics_in_netns_on_remote env agent.host
      ("qrouter-" ++ router.id)).1 = .ok []) :
    ensure_clean_router_on_host env agent router =
      (.ok true, [.remote agent.host
        (cmd_list_nic_in_netns ("qrouter-" ++ router.id))]) := by
  unfold ensure_clean_router_on_host
  dsimp only
  split
  · rename_i e heq
    rw [h] at heq
    cases heq
  · rename_i result heq
    rw [h] at heq
    injection heq with heq'
    subst heq'
    simp [list_nics_trace]

/-- **C9.**  `_ensure_clean_router_on_host` returns true for every agent
and router whose namespace listing succeeds; and on a namespace whose
interface listing is already empty it is idempotent: two successive
calls both return true and issue no destructive (port- or
namespace-deleting) command. -/
theorem ensure_clean_true_and_idempotent (env : Env) (agent : Agent)
    (router : Router) :
    (∀ nics, (list_nics_in_netns_on_remote env agent.host
        ("qrouter-" ++ router.id)).1 = .ok nics →
      (ensure_clean_router_on_host env agent router).1 = .ok true) ∧
    ((list_nics_in_netns_on_remote env agent.host
        ("qrouter-" ++ router.id)).1 = .ok [] →
      (ensure_clean_twice env agent router).1.1 = .ok true ∧
      (ensure_clean_twice env agent router).2.1 = .ok true ∧
      ∀ a ∈ (ensure_clean_twice env agent router).2.2,
        a.isDestructive = false) := by
  constructor
  · intro nics h
    exact ensure_clean_ok_of_ok env agent router nics h
  · intro h
    have he := ensure_clean_of_empty env agent router h
    refine ⟨?_, ?_, ?_⟩
    · unfold ensure_clean_twice
      dsimp only
      rw [he]
    · unfold ensure_clean_twice
      dsimp only
      rw [he]
    · unfold ensure_clean_twice
      dsimp only
      rw [he]
      intro a ha
      simp only [List.mem_singleton] at ha
      subst ha
      rfl

/-- Witness for `ensure_clean_true_and_idempotent`: a namespace holding
only `lo` lists as empty; both calls return true with no destructive
command. -/
theorem ensure_clean_true_and_idempotent_witness :
    (ensure_clean_twice envOnlyLo srcA r0).1.1 = .ok true ∧
    (ensure_clean_twice envOnlyLo srcA r0).2.1 = .ok true ∧
    (ensure_clean_twice envOnlyLo srcA r0).2.2.all
      (fun a => !a.isDestructive) = true := by
  obtain ⟨h1, h2, h3⟩ :=
    (ensure_clean_true_and_idempotent envOnlyLo srcA r0).2 (by rfl)
  exact ⟨h1, h2, List.all_eq_true.mpr (fun a ha => by rw [h3 a ha]; rfl)⟩

/-- The listing produced by `_list_nics_in_netns_on_remote` never
contains the loopback interface. -/
theorem lo_not_mem_list_nics (env : Env) (host netns : String)
    (nics : List String)
    (h : (list_nics_in_netns_on_remote env host netns).1 = .ok nics) :
    "lo" ∉ nics := by
  unfold list_nics_in_netns_on_remote at h
  dsimp only at h
  split at h
  · injection h with h'
    subst h'
    intro hmem
    rw [List.mem_filter] at hmem
    simp at hmem
  · split at h
    · injection h with h'
      subst h'
      simp
    · cases h

theorem isDelPortOf_delete_cmd (target host nic br : String) :
    Action.isDelPortOf target (.remote host (cmd_delete_ovs_port nic br 10))
      = (nic == target) := rfl

theorem isDelPortOf_list_cmd (target host ns : String) :
    Action.isDelPortOf target (.remote host (cmd_list_nic_in_netns ns))
      = false := rfl

theorem isDelPortOf_netns_cmd (target host ns : String) :
    Action.isDelPortOf target (.remote host (cmd_delete_netns ns))
      = false := rfl

/-- **C10.**  `lo` is never in the interface list returned by the
namespace listing; a namespace containing only `lo` is treated as clean
(true, no destructive command); and the forced cleanup never issues an
`ovs-vsctl` port deletion targeting `lo`. -/
theorem lo_never_deleted (env : Env) (host netns : String)
    (agent : Agent) (router : Router) :
    (∀ nics, (list_nics_in_netns_on_remote env host netns).1 = .ok nics →
      "lo" ∉ nics) ∧
    (∀ err2, env.remoteExec agent.host
        (cmd_list_nic_in_netns ("qrouter-" ++ router.id)) =
        (0, "lo", err2) →
      (ensure_clean_router_on_host env agent router).1 = .ok true ∧
      ∀ a ∈ (ensure_clean_router_on_host env agent router).2,
        a.isDestructive = false) ∧
    (∀ a ∈ (ensure_clean_router_on_host env agent router).2,
      a.isDelPortOf "lo" = false) := by
  refine ⟨fun nics h => lo_not_mem_list_nics env host netns nics h, ?_, ?_⟩
  · intro err2 hexec
    have hls : (list_nics_in_netns_on_remote env agent.host
        ("qrouter-" ++ router.id)).1 = .ok [] := by
      unfold list_nics_in_netns_on_remote rrun
      rw [hexec]
      rfl
    have he := ensure_clean_of_empty env agent router hls
    refine ⟨?_, ?_⟩
    · rw [he]
    · rw [he]
      intro a ha
      simp only [List.mem_singleton] at ha
      subst ha
      rfl
  · unfold ensure_clean_router_on_host
    dsimp only
    split
    · intro a ha
      rw [list_nics_trace] at ha
      simp only [List.mem_singleton] at ha
      subst ha
      exact isDelPortOf_list_cmd "lo" agent.host _
    · rename_i result heq
      split
      · intro a ha
        rw [list_nics_trace] at ha
        simp only [List.mem_singleton] at ha
        subst ha
        exact isDelPortOf_list_cmd "lo" agent.host _
      · intro a ha
        rcases List.mem_append.mp ha with ha | ha
        · rcases List.mem_append.mp ha with ha | ha
          · rw [list_nics_trace] at ha
            simp only [List.mem_singleton] at ha
            subst ha
            exact isDelPortOf_list_cmd "lo" agent.host _
          · obtain ⟨nic, hnic, br, rfl⟩ :=
              mem_clean_nics env agent.host result a ha
            rw [isDelPortOf_delete_cmd]
            have hne : nic ≠ "lo" := by
              intro hcon
              subst hcon
              exact lo_not_mem_list_nics env agent.host
                ("qrouter-" ++ router.id) result heq hnic
            exact beq_eq_false_iff_ne.mpr hne
        · rw [clean_netns_trace] at ha
          simp only [List.mem_singleton] at ha
          subst ha
          exact isDelPortOf_netns_cmd "lo" agent.host _

/-- Witness for `lo_never_deleted` at concrete inputs. -/
theorem lo_never_deleted_witness :
    (ensure_clean_router_on_host envOnlyLo srcA r0).1 = .ok true ∧
    (ensure_clean_router_on_host envOnlyLo srcA r0).2.all
      (fun a => !(a.isDelPortOf "lo")) = true := by
  obtain ⟨-, h2, h3⟩ := lo_never_deleted envOnlyLo "h" "ns" srcA r0
  obtain ⟨h21, -⟩ := h2 "" (by rfl)
  exact ⟨h21, List.all_eq_true.mpr (fun a ha => by rw [h3 a ha]; rfl)⟩

end L3Evacuate
